import Mathlib

/-!
# Verification of `pettingzoo_colab_visualizer/recorder.py`

A shallow embedding of the recorder module of the
`pettingzoo_colab_visualizer` repository, together with theorems settling
the specification claims about it.

Conventions of the embedding:

* Python strings are `String` / `List Char`; Python `re.search` over the
  three fixed patterns of the source is embedded as explicit left-to-right
  scanners with greedy digit capture (the exact leftmost-match semantics of
  those patterns).
* NumPy images are embedded as an `Image`: explicit height/width and a pixel
  function returning a 3-channel value.  `uint8` channel values are `Nat`
  together with the invariant `Image.isU8` (every channel `≤ 255`).
  Floating-point frames are embedded with rational (`ℚ`) channels.
* `cv2.addWeighted(overlay, 0.6, img, 0.4, 0, img)` is embedded channelwise
  as rounding of the exact rational `0.6·a + 0.4·b` to the nearest integer
  (since `6a + 4b` is always even, the value is never at a half, so every
  round-to-nearest mode agrees), saturated at 255.
* The filesystem touched by `save_gif` / `create_video_from_gifs` is an
  explicit state: a set (list) of existing directories and an association
  list of files, with `Path.mkdir` / writing embedded as state transformers.
-/

namespace Recorder

/-! ## Digit runs and case-insensitive matching -/

/-- Numeric value of a run of ASCII digits, as Python `int` applied to a
captured group of `\d+` (leading zeros allowed). -/
def digitsVal (l : List Char) : Nat :=
  l.foldl (fun a c => a * 10 + (c.toNat - 48)) 0

/-- One attempt of `re.search(r"ep(\d+)", s, re.IGNORECASE)` at the head of
`l` (recorder.py line 35): if `l` starts with `e`/`E`, then `p`/`P`, then at
least one digit, return the maximal (greedy) digit run after the "ep". -/
def epMatchAt : List Char → Option (List Char)
  | e :: p :: rest =>
    if e.toLower == 'e' && p.toLower == 'p' &&
        (match rest with | d :: _ => d.isDigit | [] => false) then
      some (rest.takeWhile Char.isDigit)
    else none
  | _ => none

/-- Leftmost match of `ep(\d+)` (case-insensitive): `re.search` scans the
candidate start positions left to right. -/
def epSearch : List Char → Option (List Char)
  | [] => none
  | c :: rest =>
    match epMatchAt (c :: rest) with
    | some d => some d
    | none => epSearch rest

/-- `extract_episode_number` (recorder.py lines 33–38): the integer value of
the digits of the leftmost case-insensitive `ep(\d+)` match, else 0. -/
def extract_episode_number (filename : String) : Nat :=
  match epSearch filename.toList with
  | some ds => digitsVal ds
  | none => 0

/-- Spec-side predicate: the pattern `ep` followed by at least one digit
(case-insensitive) occurs at position `i` of `l`. -/
def epAtB (l : List Char) (i : Nat) : Bool :=
  match l.drop i with
  | e :: p :: d :: _ => e.toLower == 'e' && p.toLower == 'p' && d.isDigit
  | _ => false

/-- Spec-side episode number, written from the spec's words: the integer
value of the digits (the maximal digit run) of the *first* case-insensitive
occurrence of "ep" immediately followed by one or more digits, and 0 when no
such occurrence exists.  Compared with `extract_episode_number` in claim C2. -/
def epNumSpec (filename : String) : Nat :=
  let l := filename.toList
  match (List.range l.length).find? (epAtB l) with
  | some i => digitsVal ((l.drop (i + 2)).takeWhile Char.isDigit)
  | none => 0

/-! ## `Path.stem` / `Path.suffix`

`pathlib`'s suffix of a file name `name` is `name[i:]` where `i` is the
index of the last dot, provided `0 < i < len(name) - 1`, and empty
otherwise; the stem is the complementary part.  (The names handled here are
plain directory entries, without path separators.) -/

/-- Index of the last `'.'` in `l`, if any. -/
def rfindDot (l : List Char) : Option Nat :=
  (List.range l.length).foldl
    (fun acc i => if l.getD i ' ' == '.' then some i else acc) none

/-- `pathlib.PurePath.stem` on a plain file name. -/
def stemChars (l : List Char) : List Char :=
  match rfindDot l with
  | some i => if 0 < i ∧ i < l.length - 1 then l.take i else l
  | none => l

/-- `Path(name).stem` (recorder.py line 48). -/
def stemOf (name : String) : String :=
  ⟨stemChars name.toList⟩

/-- `pathlib.PurePath.suffix` on a plain file name. -/
def suffixChars (l : List Char) : List Char :=
  match rfindDot l with
  | some i => if 0 < i ∧ i < l.length - 1 then l.drop i else []
  | none => []

/-- `p.suffix.lower() == ".gif"` (recorder.py line 163): the pathlib suffix
of the entry name, lowercased characterwise (ASCII `str.lower`), compared
with ".gif". -/
def isGifName (name : String) : Bool :=
  (suffixChars name.toList).map Char.toLower == ['.', 'g', 'i', 'f']

/-! ## The display-label patterns of `_safe_episode_number_from_filename` -/

/-- `l` starts with `tok`, compared case-insensitively. -/
def startsWithCI : List Char → List Char → Bool
  | [], _ => true
  | _ :: _, [] => false
  | t :: ts, c :: cs => c.toLower == t && startsWithCI ts cs

/-- One alternative of `(episode|ep|episo|e)_(\d+)` at the head of `l`:
the literal token `tok` (case-insensitive), then `'_'`, then at least one
digit; the greedy digit run is the captured group. -/
def tryTokCI (tok : List Char) (l : List Char) : Option (List Char) :=
  if startsWithCI tok l then
    match l.drop tok.length with
    | c :: d :: rest =>
      if c == '_' && d.isDigit then some ((d :: rest).takeWhile Char.isDigit)
      else none
    | _ => none
  else none

/-- The alternation `(episode|ep|episo|e)_(\d+)` at the head of `l`: the
regex engine tries the alternatives in written order at each position
(backtracking into the next alternative when the rest of the pattern
fails). -/
def altUnderscoreDigits (l : List Char) : Option (List Char) :=
  match tryTokCI ['e','p','i','s','o','d','e'] l with
  | some d => some d
  | none =>
    match tryTokCI ['e','p'] l with
    | some d => some d
    | none =>
      match tryTokCI ['e','p','i','s','o'] l with
      | some d => some d
      | none => tryTokCI ['e'] l

/-- Leftmost match of `(episode|ep|episo|e)_(\d+)` (case-insensitive),
recorder.py line 53. -/
def tokSearch : List Char → Option (List Char)
  | [] => none
  | c :: rest =>
    match altUnderscoreDigits (c :: rest) with
    | some d => some d
    | none => tokSearch rest

/-- Leftmost match of `(\d{1,6})` (recorder.py line 56): the first digit run,
greedily capped at six digits. -/
def digitSearch : List Char → Option (List Char)
  | [] => none
  | c :: rest =>
    if c.isDigit then some (((c :: rest).takeWhile Char.isDigit).take 6)
    else digitSearch rest

/-- `_safe_episode_number_from_filename` (recorder.py lines 41–59): strip the
extension, then try `ep(\d+)`, then `(episode|ep|episo|e)_(\d+)`, then
`(\d{1,6})`, each case-insensitively where the source says so; fall back to
the stem itself. -/
def _safe_episode_number_from_filename (name : String) : String :=
  let base := stemOf name
  let l := base.toList
  match epSearch l with
  | some d => ⟨d⟩
  | none =>
    match tokSearch l with
    | some d => ⟨d⟩
    | none =>
      match digitSearch l with
      | some d => ⟨d⟩
      | none => base

/-! ## Stable sorting by episode number -/

/-- Stable insertion of `a` into `l` by ascending key: `a` goes before the
first element whose key is not smaller, so an element originating further
left in the unsorted list stays before later elements with an equal key. -/
def insertByKey {α : Type} (key : α → Nat) (a : α) : List α → List α
  | [] => [a]
  | b :: bs => if key a ≤ key b then a :: b :: bs else b :: insertByKey key a bs

/-- Stable ascending sort by key.  Python `list.sort(key=...)`
(recorder.py line 164) is documented to be a stable ascending sort, and a
stable ascending sort of a list is unique, so this insertion sort is
extensionally the embedding of it (sortedness and stability are proved
below). -/
def sortByKey {α : Type} (key : α → Nat) (l : List α) : List α :=
  l.foldr (insertByKey key) []

/-- The listing phase of `create_video_from_gifs` (recorder.py lines
163–164): filter the `iterdir()` enumeration to the entries whose pathlib
suffix lowercases to ".gif", then stably sort by `extract_episode_number`
applied to the entry name. -/
def gifProcessingOrder (listing : List String) : List String :=
  sortByKey extract_episode_number (listing.filter isGifName)

/-! ## Images -/

/-- One 3-channel pixel; channel values are naturals, with the uint8 range
expressed by `Image.isU8`. -/
def Pix : Type := Nat × Nat × Nat

/-- Apply `f` to each channel. -/
def Pix.mapC (f : Nat → Nat) (p : Pix) : Pix :=
  (f p.1, f p.2.1, f p.2.2)

/-- Combine two pixels channelwise. -/
def Pix.zipC (f : Nat → Nat → Nat) (p q : Pix) : Pix :=
  (f p.1 q.1, f p.2.1 q.2.1, f p.2.2 q.2.2)

/-- An `h × w × 3` uint8 NumPy array: pixel (row `j`, column `i`) is
`pix j i`. -/
structure Image where
  h : Nat
  w : Nat
  pix : Nat → Nat → Pix

/-- Every in-bounds channel value fits in a byte (the uint8 dtype
invariant). -/
def Image.isU8 (img : Image) : Prop :=
  ∀ j < img.h, ∀ i < img.w,
    (img.pix j i).1 ≤ 255 ∧ (img.pix j i).2.1 ≤ 255 ∧ (img.pix j i).2.2 ≤ 255

/-- A floating-point frame: channels are rationals (the embedding of the
finite float values the libraries produce). -/
structure QImage where
  h : Nat
  w : Nat
  pix : Nat → Nat → ℚ × ℚ × ℚ

/-- A frame handed to `save_gif` or `_add_episode_text_to_frames`: its dtype
is either already uint8 or some other numeric dtype. -/
inductive Frame where
  | u8 (img : Image)
  | fl (img : QImage)

/-- `np.clip(v, 0, 1)` on one channel. -/
def clip01 (q : ℚ) : ℚ :=
  max 0 (min q 1)

/-- One channel of `(255 * np.clip(f, 0, 1)).astype(np.uint8)`: clamp to
[0,1], scale by 255, truncate toward zero (the value is nonnegative, so
truncation is the floor). -/
def truncChan (q : ℚ) : Nat :=
  (⌊255 * clip01 q⌋).toNat

/-- Clamp/scale/truncate a whole floating-point frame to uint8. -/
def QImage.toU8 (qi : QImage) : Image :=
  { h := qi.h, w := qi.w,
    pix := fun j i =>
      ((truncChan (qi.pix j i).1, truncChan (qi.pix j i).2.1,
        truncChan (qi.pix j i).2.2) : Pix) }

/-- The frame-normalization loop body of `save_gif` (recorder.py lines
130–135): `np.array(f, copy=False)` preserves dtype and contents; a uint8
frame passes through unchanged, any other frame is clamped, scaled and
truncated. -/
def normalizeFrame : Frame → Image
  | .u8 img => img
  | .fl qi => qi.toU8

/-- The dtype coercion at the top of `_add_episode_text_to_frames`
(recorder.py lines 72–74): `img = f.copy()`, then the same
clamp/scale/truncate when the dtype is not uint8.  Defined separately
because the source spells the rule out a second time there; claim C10
compares it with `normalizeFrame`. -/
def annotNormalizeFrame : Frame → Image
  | .u8 img => img
  | .fl qi => qi.toU8

/-! ## The banner rectangle and the compositing stage -/

/-- An axis-aligned rectangle given by two opposite corners, in signed
coordinates as computed by the Python code. -/
structure Rect where
  x1 : Int
  y1 : Int
  x2 : Int
  y2 : Int

/-- The rectangle computed by `_add_episode_text_to_frames` (recorder.py
lines 82–91) from the frame size `w × h` and the measured text size
`(text_w, text_h)` that `cv2.getTextSize` reports for the label.  Python
`//` is floor division; its divisor here is the literal 2 > 0, for which
Lean integer division `/` coincides with floor division. -/
def bannerRect (w h text_w text_h : Nat) : Rect :=
  let x : Int := ((w : Int) - (text_w : Int)) / 2
  let y : Int := (text_h : Int) + 10
  { x1 := max (x - 8) 0
    y1 := max (y - (text_h : Int) - 8) 0
    x2 := min (x + (text_w : Int) + 8) (w : Int)
    y2 := min (y + 8) (h : Int) }

/-- Pixel (column `i`, row `j`) lies in the filled rectangle:
`cv2.rectangle(..., thickness=-1)` fills the axis-aligned rectangle spanned
by the two given corners, both corners included. -/
def Rect.covers (r : Rect) (i j : Nat) : Prop :=
  r.x1 ≤ (i : Int) ∧ (i : Int) ≤ r.x2 ∧ r.y1 ≤ (j : Int) ∧ (j : Int) ≤ r.y2

instance (r : Rect) (i j : Nat) : Decidable (r.covers i j) := by
  unfold Rect.covers
  infer_instance

/-- `cv2.rectangle(overlay, (x1, y1), (x2, y2), (0,0,0), -1)` (recorder.py
line 96): fill every image pixel inside the rectangle with `c` (cv2 clips
the rectangle to the image, so only in-bounds pixels change). -/
def fillRect (img : Image) (r : Rect) (c : Pix) : Image :=
  { img with pix := fun j i =>
      if r.covers i j ∧ j < img.h ∧ i < img.w then c else img.pix j i }

/-- One channel of `cv2.addWeighted(ov, 0.6, img, 0.4, 0, dst)`: the exact
rational `(6a + 4b) / 10` rounded to the nearest integer (never a tie,
since `6a + 4b` is even) and saturated at 255; over the naturals this is
`min ((6a + 4b + 5) / 10) 255`. -/
def awChan (a b : Nat) : Nat :=
  min ((6 * a + 4 * b + 5) / 10) 255

/-- `cv2.addWeighted(overlay, 0.6, img, 0.4, 0, img)` (recorder.py line
98): blend the whole overlay over the whole image. -/
def addWeighted60 (ov img : Image) : Image :=
  { img with pix := fun j i => Pix.zipC awChan (ov.pix j i) (img.pix j i) }

/-- The banner compositing stage of `_add_episode_text_to_frames`
(recorder.py lines 95–98): copy the image, fill the banner rectangle black
on the copy, then alpha-blend the copy over the image with weight 0.6. -/
def blendStage (img : Image) (r : Rect) : Image :=
  addWeighted60 (fillRect img r ((0, 0, 0) : Pix)) img

/-- One frame of `_add_episode_text_to_frames` (recorder.py lines 70–105).
The text-measuring and text-drawing primitives (`cv2.getTextSize`,
`cv2.putText`) are external drawing capabilities per the spec and enter as
parameters: `textSize` is the measured `(width, height)` of the label and
`drawText` draws the white label onto the blended image. -/
def annotateFrame (textSize : String → Nat × Nat) (drawText : Image → Image)
    (episode_text : String) (f : Frame) : Image :=
  let img := annotNormalizeFrame f
  let tw := (textSize episode_text).1
  let th := (textSize episode_text).2
  drawText (blendStage img (bannerRect img.w img.h tw th))

/-- `_add_episode_text_to_frames` (recorder.py lines 63–106) over a list of
frames. -/
def _add_episode_text_to_frames (textSize : String → Nat × Nat)
    (drawText : Image → Image) (frames : List Frame)
    (episode_text : String) : List Image :=
  frames.map (annotateFrame textSize drawText episode_text)

/-! ## The filesystem model -/

/-- The Python exceptions raised by the modelled operations. -/
inductive PyErr where
  | fileNotFoundError (msg : String)
  | fileExistsError (msg : String)
  deriving DecidableEq

/-- What `imageio.mimsave(path, safe_frames, fps=fps)` receives: the gif
encoder is an external capability, so a written gif file is modelled by its
payload. -/
structure GifFile where
  frames : List Image
  fps : Nat

/-- A filesystem: the set (list) of existing directories and the files,
both keyed by component paths. -/
structure FS where
  dirs : List (List String)
  files : List (List String × GifFile)

/-- Split a character list at every occurrence of `sep` (the groups between
separators, in order). -/
def splitOnChar (sep : Char) : List Char → List (List Char)
  | [] => [[]]
  | c :: rest =>
    if c == sep then [] :: splitOnChar sep rest
    else
      match splitOnChar sep rest with
      | [] => [[c]]
      | g :: gs => (c :: g) :: gs

/-- `pathlib.Path(s)` parsed into components (relative POSIX paths; pathlib
drops empty components coming from repeated or trailing separators). -/
def parsePath (s : String) : List String :=
  ((splitOnChar '/' s.toList).map (fun cs => (⟨cs⟩ : String))).filter
    (fun c => c != "")

/-- Join components back into the string `str(path)` produces. -/
def joinPath (p : List String) : String :=
  String.intercalate "/" p

/-- The nonempty prefixes of a component path: the directory itself and all
its ancestors, i.e. everything `mkdir(parents=True)` creates. -/
def pathPrefixes (p : List String) : List (List String) :=
  (List.range p.length).map (fun k => p.take (k + 1))

/-- `pathlib.Path.mkdir(parents=parents, exist_ok=exist_ok)` on the
directory-set model: an existing directory raises `FileExistsError` unless
`exist_ok` is set; a missing parent raises `FileNotFoundError` unless
`parents` is set, in which case every missing ancestor is created.
`save_gif` calls this with both flags set (recorder.py line 123). -/
def FS.mkdir (fs : FS) (p : List String) (parents exist_ok : Bool) :
    Except PyErr FS :=
  if p ∈ fs.dirs then
    if exist_ok then .ok fs else .error (.fileExistsError (joinPath p))
  else if parents then
    .ok { fs with dirs := pathPrefixes p ++ fs.dirs }
  else if p.dropLast = [] ∨ p.dropLast ∈ fs.dirs then
    .ok { fs with dirs := p :: fs.dirs }
  else
    .error (.fileNotFoundError (joinPath p.dropLast))

/-- Overwriting file write: `imageio.mimsave` replaces any existing file at
the path. -/
def FS.writeFile (fs : FS) (p : List String) (g : GifFile) : FS :=
  { fs with files := (p, g) :: fs.files.filter (fun e => e.1 != p) }

/-- File lookup. -/
def FS.readFile (fs : FS) (p : List String) : Option GifFile :=
  (fs.files.find? (fun e => e.1 == p)).map (fun e => e.2)

/-- `save_gif` (recorder.py lines 109–141) on the filesystem model:
`folder_path.mkdir(parents=True, exist_ok=True)`, normalize every frame to
uint8 (lines 130–135), write the encoded sequence to
`folder/{episode_name}.gif` overwriting any previous file, and return that
path as a string. -/
def save_gif (fs : FS) (frames : List Frame) (episode_name folder : String)
    (fps : Nat) : Except PyErr (FS × String) :=
  match fs.mkdir (parsePath folder) true true with
  | .error e => .error e
  | .ok fs1 =>
    let filePath := parsePath folder ++ [episode_name ++ ".gif"]
    let safe_frames := frames.map normalizeFrame
    .ok (fs1.writeFile filePath { frames := safe_frames, fps := fps },
         joinPath filePath)

/-- The state of the gif folder as `create_video_from_gifs` sees it: whether
the directory exists and, when it does, its `iterdir()` enumeration order. -/
structure DirState where
  dexists : Bool
  listing : List String

/-- A successful run of the assembler: the gif files in processed (sorted)
order, the files written to disk, and the returned path. -/
structure VidOk where
  order : List String
  writes : List String
  ret : String
  deriving DecidableEq

/-- `create_video_from_gifs` (recorder.py lines 144–191) down to its
filesystem-visible behaviour: the existence check, the gif listing, the
stable sort and the emptiness check happen in that order before anything is
written; on success the clips are decoded, annotated and concatenated by
external libraries and the single output file is written.  The error
messages elide the quoting of the Python f-strings. -/
def create_video_from_gifs (gif_folder output_file : String)
    (st : DirState) : Except PyErr VidOk :=
  if st.dexists = false then
    .error (.fileNotFoundError ("gif_folder " ++ gif_folder ++ " does not exist"))
  else
    let gif_files := gifProcessingOrder st.listing
    if gif_files.isEmpty then
      .error (.fileNotFoundError ("No gif files found in " ++ gif_folder))
    else
      .ok { order := gif_files, writes := [output_file], ret := output_file }

/-! ## Spec-side predicates and auxiliary notions used by the claims -/

/-- The rest of the second label pattern after the token: an underscore
followed by at least one digit. -/
def underscoreDigitB : List Char → Bool
  | c :: d :: _ => c == '_' && d.isDigit
  | _ => false

/-- Spec-side predicate: the alternative `tok` of the second label pattern,
followed by an underscore and at least one digit, matches at the head of
`l` (case-insensitively). -/
def tokHereB (tok l : List Char) : Bool :=
  startsWithCI tok l && underscoreDigitB (l.drop tok.length)

/-- Spec-side predicate: some alternative of `(episode|ep|episo|e)_(\d+)`
matches at position `i` of `l`. -/
def tokAnyAtB (l : List Char) (i : Nat) : Bool :=
  tokHereB ['e','p','i','s','o','d','e'] (l.drop i) ||
  tokHereB ['e','p'] (l.drop i) ||
  tokHereB ['e','p','i','s','o'] (l.drop i) ||
  tokHereB ['e'] (l.drop i)

/-- The rectangle coordinates lie within a `w × h` frame: no coordinate is
negative, x-coordinates never exceed the width, y-coordinates never exceed
the height (the wording of the clamping claim C7). -/
def rectInBounds (r : Rect) (w h : Nat) : Prop :=
  0 ≤ r.x1 ∧ r.x1 ≤ (w : Int) ∧ 0 ≤ r.x2 ∧ r.x2 ≤ (w : Int) ∧
  0 ≤ r.y1 ∧ r.y1 ≤ (h : Int) ∧ 0 ≤ r.y2 ∧ r.y2 ≤ (h : Int)

instance (r : Rect) (w h : Nat) : Decidable (rectInBounds r w h) := by
  unfold rectInBounds
  infer_instance

instance (img : Image) : Decidable img.isU8 := by
  unfold Image.isU8
  infer_instance

/-- Well-formedness of a frame: a frame whose dtype is uint8 really has all
channel values in a byte (what the NumPy dtype guarantees); a floating
frame carries no constraint. -/
def Frame.wf : Frame → Prop
  | .u8 img => img.isU8
  | .fl _ => True

instance (f : Frame) : Decidable f.wf := by
  unfold Frame.wf
  cases f <;> infer_instance

/-- The files written to disk by a run of the assembler.  In the source both
raises (recorder.py lines 157 and 168) happen before the single write of
the output file (line 188), so an erroring run writes nothing. -/
def writesOf : Except PyErr VidOk → List String
  | .error _ => []
  | .ok o => o.writes

/-- A concrete 2 × 4 uint8 image used by the witnesses below. -/
def demoImg : Image :=
  { h := 2, w := 4, pix := fun _ _ => ((100, 50, 7) : Pix) }

/-- A concrete floating-point frame used by the witnesses below. -/
def demoQImg : QImage :=
  { h := 1, w := 2, pix := fun _ _ => ((1 / 2 : ℚ), 2, -1) }

/-- A concrete empty filesystem used by the witnesses below. -/
def demoFS : FS :=
  { dirs := [], files := [] }

end Recorder

namespace Recorder

/-! ## Helper lemmas on the `ep(\d+)` scanner -/

theorem epMatchAt_eq (l : List Char) :
    epMatchAt l =
      if epAtB l 0 then some ((l.drop 2).takeWhile Char.isDigit) else none := by
  match l with
  | [] => rfl
  | [c] => rfl
  | [c, p] => simp [epMatchAt, epAtB]
  | c :: p :: d :: rest => rfl

theorem epSearch_eq (l : List Char) :
    epSearch l =
      ((List.range l.length).find? (epAtB l)).map
        (fun i => (l.drop (i + 2)).takeWhile Char.isDigit) := by
  induction l with
  | nil => rfl
  | cons c rest ih =>
    rw [List.length_cons, List.range_succ_eq_map, List.find?_cons]
    cases h0 : epAtB (c :: rest) 0 with
    | true =>
      simp only [epSearch, epMatchAt_eq, h0, if_true]
      rfl
    | false =>
      simp only [epSearch, epMatchAt_eq, h0, Bool.false_eq_true, if_false]
      rw [List.find?_map]
      have hcomp : (epAtB (c :: rest)) ∘ Nat.succ = epAtB rest :=
        funext fun i => rfl
      rw [hcomp, Option.map_map, ih]
      rfl

/-- C2: `extract_episode_number` returns the integer value of the digits of
the first case-insensitive occurrence of "ep" immediately followed by one
or more digits (`epNumSpec`, written from the spec), 0 when no such
occurrence exists, and in particular agrees with the three spec examples. -/
theorem extract_episode_number_correct :
    (∀ s : String, extract_episode_number s = epNumSpec s) ∧
    extract_episode_number "pong_ep100.gif" = 100 ∧
    extract_episode_number "noid.gif" = 0 ∧
    extract_episode_number "EP7.gif" = 7 := by
  refine ⟨fun s => ?_, by decide, by decide, by decide⟩
  simp only [extract_episode_number, epNumSpec, epSearch_eq]
  cases h : (List.range s.toList.length).find? (epAtB s.toList) <;> rfl

/-! ## Helper lemmas on the other two label scanners -/

theorem tryTokCI_eq_none (tok l : List Char) (h : tokHereB tok l = false) :
    tryTokCI tok l = none := by
  unfold tokHereB at h
  unfold tryTokCI
  cases hs : startsWithCI tok l with
  | false => simp [hs]
  | true =>
    rw [hs, Bool.true_and] at h
    simp only [hs, if_true]
    cases hd : l.drop tok.length with
    | nil => rfl
    | cons c rest2 =>
      cases rest2 with
      | nil => rfl
      | cons d rest =>
        rw [hd] at h
        replace h : (c == '_' && d.isDigit) = false := h
        simp [h]

theorem tokSearch_eq_none (l : List Char)
    (h : ∀ i < l.length, tokAnyAtB l i = false) : tokSearch l = none := by
  induction l with
  | nil => rfl
  | cons c rest ih =>
    have h0 := h 0 (Nat.succ_pos _)
    unfold tokAnyAtB at h0
    simp only [List.drop_zero] at h0
    rw [Bool.or_eq_false_iff, Bool.or_eq_false_iff, Bool.or_eq_false_iff] at h0
    obtain ⟨⟨⟨h1, h2⟩, h3⟩, h4⟩ := h0
    unfold tokSearch altUnderscoreDigits
    rw [tryTokCI_eq_none _ _ h1, tryTokCI_eq_none _ _ h2,
      tryTokCI_eq_none _ _ h3, tryTokCI_eq_none _ _ h4]
    exact ih (fun i hi => h (i + 1) (Nat.succ_lt_succ hi))

theorem digitSearch_eq_none (l : List Char)
    (h : ∀ c ∈ l, c.isDigit = false) : digitSearch l = none := by
  induction l with
  | nil => rfl
  | cons c rest ih =>
    unfold digitSearch
    rw [h c (List.mem_cons_self c rest)]
    simp only [Bool.false_eq_true, if_false]
    exact ih (fun d hd => h d (List.mem_cons_of_mem c hd))

/-- C4: the display-label extraction strips the extension, tries the three
patterns in order, and falls back to the stem.  The first three conjuncts
are the spec examples; the next two separate the pattern priority (in
`3_ep42` pattern 1 beats the earlier digit run, in `1_e_2` pattern 2 beats
the earlier digit run); the final conjunct is the fallback: when no pattern
matches anywhere in the stem, the stem is returned unmodified. -/
theorem safe_episode_label_correct :
    _safe_episode_number_from_filename "ep42.gif" = "42" ∧
    _safe_episode_number_from_filename "episode_7.gif" = "7" ∧
    _safe_episode_number_from_filename "recording.gif" = "recording" ∧
    _safe_episode_number_from_filename "3_ep42.gif" = "42" ∧
    _safe_episode_number_from_filename "1_e_2.gif" = "2" ∧
    (∀ s : String,
      (∀ i < (stemOf s).toList.length, epAtB (stemOf s).toList i = false) →
      (∀ i < (stemOf s).toList.length, tokAnyAtB (stemOf s).toList i = false) →
      (∀ c ∈ (stemOf s).toList, c.isDigit = false) →
      _safe_episode_number_from_filename s = stemOf s) := by
  refine ⟨by decide, by decide, by decide, by decide, by decide,
    fun s h1 h2 h3 => ?_⟩
  have hfind :
      (List.range (stemOf s).toList.length).find? (epAtB (stemOf s).toList) =
        none :=
    List.find?_eq_none.mpr (fun i hi => by
      rw [List.mem_range] at hi
      simp only [Bool.not_eq_true]
      exact h1 i hi)
  have he : epSearch (stemOf s).toList = none := by
    rw [epSearch_eq, hfind]
    rfl
  simp only [_safe_episode_number_from_filename]
  rw [he, tokSearch_eq_none _ h2, digitSearch_eq_none _ h3]

/-- Witness for C4: on "recording.gif" no pattern matches anywhere in the
stem, and the label falls back to the stem. -/
theorem safe_episode_label_correct_witness :
    _safe_episode_number_from_filename "recording.gif" =
      stemOf "recording.gif" :=
  safe_episode_label_correct.2.2.2.2.2 "recording.gif" (by decide) (by decide)
    (by decide)

/-- C8: a filename on which the sort key and the display label disagree:
`extract_episode_number` sees no `ep`+digits in "episode_7.gif" and returns
the fallback 0, while the label extraction returns the digit string "7". -/
theorem sort_key_label_disagree :
    extract_episode_number "episode_7.gif" = 0 ∧
    _safe_episode_number_from_filename "episode_7.gif" = "7" ∧
    "7" ≠ "0" := by
  refine ⟨by decide, by decide, by decide⟩

/-! ## The stable sort -/

theorem insertByKey_perm {α : Type} (key : α → Nat) (a : α) (l : List α) :
    List.Perm (insertByKey key a l) (a :: l) := by
  induction l with
  | nil => exact List.Perm.refl _
  | cons b bs ih =>
    unfold insertByKey
    by_cases hab : key a ≤ key b
    · rw [if_pos hab]
    · rw [if_neg hab]
      exact (ih.cons b).trans (List.Perm.swap a b bs)

theorem insertByKey_pairwise {α : Type} (key : α → Nat) (a : α) (l : List α)
    (h : l.Pairwise (fun x y => key x ≤ key y)) :
    (insertByKey key a l).Pairwise (fun x y => key x ≤ key y) := by
  induction l with
  | nil => simp [insertByKey]
  | cons b bs ih =>
    rw [List.pairwise_cons] at h
    unfold insertByKey
    by_cases hab : key a ≤ key b
    · rw [if_pos hab, List.pairwise_cons]
      refine ⟨fun x hx => ?_, List.pairwise_cons.mpr h⟩
      rcases List.mem_cons.mp hx with rfl | hx
      · exact hab
      · exact le_trans hab (h.1 x hx)
    · rw [if_neg hab, List.pairwise_cons]
      refine ⟨fun x hx => ?_, ih h.2⟩
      rcases List.mem_cons.mp (((insertByKey_perm key a bs).mem_iff).mp hx)
        with rfl | hx
      · exact le_of_lt (Nat.lt_of_not_le hab)
      · exact h.1 x hx

theorem sortByKey_pairwise {α : Type} (key : α → Nat) (l : List α) :
    (sortByKey key l).Pairwise (fun x y => key x ≤ key y) := by
  induction l with
  | nil => exact List.Pairwise.nil
  | cons a as ih => exact insertByKey_pairwise key a _ ih

theorem sortByKey_perm {α : Type} (key : α → Nat) (l : List α) :
    List.Perm (sortByKey key l) l := by
  induction l with
  | nil => exact List.Perm.refl _
  | cons a as ih => exact (insertByKey_perm key a _).trans (ih.cons a)

theorem insertByKey_filter {α : Type} (key : α → Nat) (a : α) (l : List α)
    (k : Nat) :
    (insertByKey key a l).filter (fun x => key x == k) =
      if key a = k then a :: l.filter (fun x => key x == k)
      else l.filter (fun x => key x == k) := by
  induction l with
  | nil =>
    by_cases hk : key a = k <;> simp [insertByKey, hk]
  | cons b bs ih =>
    unfold insertByKey
    by_cases hab : key a ≤ key b
    · rw [if_pos hab, List.filter_cons, List.filter_cons]
      by_cases hk : key a = k <;> simp [hk]
    · rw [if_neg hab, List.filter_cons, List.filter_cons, ih]
      by_cases hbk : key b = k
      · have hak : key a ≠ k := by omega
        simp [hak, hbk]
      · by_cases hak : key a = k <;> simp [hak, hbk]

theorem sortByKey_filter {α : Type} (key : α → Nat) (l : List α) (k : Nat) :
    (sortByKey key l).filter (fun x => key x == k) =
      l.filter (fun x => key x == k) := by
  induction l with
  | nil => rfl
  | cons a as ih =>
    show (insertByKey key a (sortByKey key as)).filter _ = _
    rw [insertByKey_filter, List.filter_cons]
    by_cases hk : key a = k <;> simp [hk, ih]

/-- C3: the assembler processes the `.gif` entries of the listing in
ascending order of `extract_episode_number`, by a stable sort: the result
is a permutation of the filtered listing, sorted by the key, in which the
entries of any fixed key `k` (in particular `k = 0`, where all entries with
no parseable number tie) appear in their original enumeration order; and
the listing `["ep2.gif", "ep10.gif", "ep1.gif"]` is processed in the
numeric order ep1, ep2, ep10. -/
theorem gif_sort_stable_ascending :
    (∀ listing : List String,
      (gifProcessingOrder listing).Pairwise
        (fun a b => extract_episode_number a ≤ extract_episode_number b)) ∧
    (∀ listing : List String,
      List.Perm (gifProcessingOrder listing) (listing.filter isGifName)) ∧
    (∀ (listing : List String) (k : Nat),
      (gifProcessingOrder listing).filter
          (fun n => extract_episode_number n == k) =
        (listing.filter isGifName).filter
          (fun n => extract_episode_number n == k)) ∧
    gifProcessingOrder ["ep2.gif", "ep10.gif", "ep1.gif"] =
      ["ep1.gif", "ep2.gif", "ep10.gif"] := by
  refine ⟨fun listing => ?_, fun listing => ?_, fun listing k => ?_, by decide⟩
  · exact sortByKey_pairwise _ _
  · exact sortByKey_perm _ _
  · exact sortByKey_filter _ _ _

/-! ## The compositing stage -/

theorem awChan_zero_left (v : Nat) (h : v ≤ 255) :
    awChan 0 v = (4 * v + 5) / 10 := by
  unfold awChan
  omega

theorem awChan_self (v : Nat) (h : v ≤ 255) : awChan v v = v := by
  unfold awChan
  omega

/-- C1: in the compositing stage of the annotator (recorder.py lines
95–98), every pixel of a uint8 frame inside the computed banner rectangle
becomes, on each channel, the 60 % black alpha-blend
`round(0.6·0 + 0.4·v) = (4·v + 5) / 10` of its original value `v`, and
every pixel outside the rectangle — and not covered by the white text that
`cv2.putText` (the external primitive `drawText`, touching only its
coverage set `cover`) later draws on top — is unchanged from the input
frame. -/
theorem banner_blend_correct (img : Image) (h8 : img.isU8)
    (textSize : String → Nat × Nat) (drawText : Image → Image)
    (cover : Nat → Nat → Prop)
    (hdraw : ∀ (g : Image) (j i : Nat), ¬ cover j i →
      (drawText g).pix j i = g.pix j i)
    (text : String) (j i : Nat) (hj : j < img.h) (hi : i < img.w)
    (hc : ¬ cover j i) :
    (annotateFrame textSize drawText text (.u8 img)).pix j i =
      if (bannerRect img.w img.h (textSize text).1
            (textSize text).2).covers i j then
        Pix.mapC (fun v => (4 * v + 5) / 10) (img.pix j i)
      else img.pix j i := by
  obtain ⟨h1, h2, h3⟩ := h8 j hj i hi
  simp only [annotateFrame]
  rw [hdraw _ _ _ hc]
  show (blendStage img (bannerRect img.w img.h (textSize text).1
    (textSize text).2)).pix j i = _
  simp only [blendStage, addWeighted60, fillRect, Pix.zipC, Pix.mapC]
  by_cases hcov : (bannerRect img.w img.h (textSize text).1
      (textSize text).2).covers i j
  · rw [if_pos hcov, if_pos ⟨hcov, hj, hi⟩]
    show (awChan 0 (img.pix j i).1, awChan 0 (img.pix j i).2.1,
      awChan 0 (img.pix j i).2.2) = _
    rw [awChan_zero_left _ h1, awChan_zero_left _ h2, awChan_zero_left _ h3]
  · rw [if_neg hcov, if_neg (fun hh => hcov hh.1)]
    show (awChan (img.pix j i).1 (img.pix j i).1,
      awChan (img.pix j i).2.1 (img.pix j i).2.1,
      awChan (img.pix j i).2.2 (img.pix j i).2.2) = _
    rw [awChan_self _ h1, awChan_self _ h2, awChan_self _ h3]
    rfl

/-- Witness for C1: a concrete frame, identity text drawing with empty
coverage, evaluated at pixel (row 0, column 1). -/
theorem banner_blend_correct_witness :
    (annotateFrame (fun _ => (1, 1)) id "Episode 1" (.u8 demoImg)).pix 0 1 =
      if (bannerRect demoImg.w demoImg.h 1 1).covers 1 0 then
        Pix.mapC (fun v => (4 * v + 5) / 10) (demoImg.pix 0 1)
      else demoImg.pix 0 1 :=
  banner_blend_correct demoImg (by decide) (fun _ => (1, 1)) id
    (fun _ _ => False) (fun g j i _ => rfl) "Episode 1" 0 1 (by decide)
    (by decide) (fun h => h)

/-! ## The banner rectangle bounds -/

/-- Counterexample to C7 as stated: on a frame of height 1 the clamped
top edge `rect_y1 = max((text_h + 10) - text_h - 8, 0) = 2` exceeds the
frame height, whatever the measured text size is. -/
theorem banner_rect_exceeds_short_frame :
    ¬ rectInBounds (bannerRect 64 1 20 12) 64 1 := by decide

/-- C7 (amended): for every frame of height at least 2 and every measured
text size — including text wider than the frame — all four rectangle
coordinates are clamped into the frame: never negative, never beyond the
width or the height. -/
theorem banner_rect_clamped (w h text_w text_h : Nat) (hh : 2 ≤ h) :
    rectInBounds (bannerRect w h text_w text_h) w h := by
  unfold rectInBounds bannerRect
  dsimp only
  omega

/-- Witness for the amended C7, with text (width 300) far wider than the
frame (width 10). -/
theorem banner_rect_clamped_witness :
    rectInBounds (bannerRect 10 2 300 40) 10 2 :=
  banner_rect_clamped 10 2 300 40 (by decide)

/-! ## Frame normalization -/

theorem truncChan_le (q : ℚ) : truncChan q ≤ 255 := by
  unfold truncChan clip01
  have hx : max 0 (min q 1) ≤ (1 : ℚ) :=
    max_le (by norm_num) (min_le_right q 1)
  have h2 : (255 : ℚ) * max 0 (min q 1) ≤ 255 := by nlinarith
  have h3 : ⌊(255 : ℚ) * max 0 (min q 1)⌋ ≤ 255 := by
    calc ⌊(255 : ℚ) * max 0 (min q 1)⌋ ≤ ⌊(255 : ℚ)⌋ := Int.floor_le_floor h2
      _ = 255 := by norm_num
  omega

theorem toU8_isU8 (qi : QImage) : (QImage.toU8 qi).isU8 := by
  unfold Image.isU8 QImage.toU8
  intro j hj i hi
  exact ⟨truncChan_le _, truncChan_le _, truncChan_le _⟩

/-- C5: the normalization of `save_gif`: a frame whose dtype is already
uint8 passes through byte-identical; any other frame is clamped to [0,1],
scaled by 255 and truncated channelwise; truncated channels always lie in
[0,255], so the result of normalizing any well-formed frame is a uint8
frame. -/
theorem save_gif_normalization :
    (∀ img : Image, normalizeFrame (.u8 img) = img) ∧
    (∀ (qi : QImage) (j i : Nat),
      (normalizeFrame (.fl qi)).pix j i =
        (truncChan (qi.pix j i).1, truncChan (qi.pix j i).2.1,
         truncChan (qi.pix j i).2.2)) ∧
    (∀ q : ℚ, truncChan q ≤ 255) ∧
    (∀ f : Frame, f.wf → (normalizeFrame f).isU8) := by
  refine ⟨fun img => rfl, fun qi j i => rfl, truncChan_le, fun f hf => ?_⟩
  cases f with
  | u8 img => exact hf
  | fl qi => exact toU8_isU8 qi

/-- Witness for C5 at a concrete uint8 frame. -/
theorem save_gif_normalization_witness :
    (normalizeFrame (.u8 demoImg)).isU8 :=
  save_gif_normalization.2.2.2 (.u8 demoImg) (by decide)

theorem blendStage_isU8 (img : Image) (r : Rect) : (blendStage img r).isU8 := by
  unfold Image.isU8 blendStage addWeighted60
  intro j hj i hi
  exact ⟨Nat.min_le_right _ _, Nat.min_le_right _ _, Nat.min_le_right _ _⟩

/-- C10: the annotator accepts frames of any numeric dtype: its dtype
coercion is exactly the normalization rule of the Writer
(`normalizeFrame`), and — because the saturating blend keeps channels in a
byte and the external text drawing maps uint8 images to uint8 images —
every frame the annotator returns has uint8 channels, whatever the input
dtype was. -/
theorem annotator_normalizes_like_writer :
    (∀ f : Frame, annotNormalizeFrame f = normalizeFrame f) ∧
    (∀ (textSize : String → Nat × Nat) (drawText : Image → Image),
      (∀ g : Image, g.isU8 → (drawText g).isU8) →
      ∀ (text : String) (f : Frame),
        (annotateFrame textSize drawText text f).isU8) := by
  refine ⟨fun f => by cases f <;> rfl,
    fun textSize drawText hdt text f => ?_⟩
  simp only [annotateFrame]
  exact hdt _ (blendStage_isU8 _ _)

/-- Witness for C10 at a concrete floating-point frame. -/
theorem annotator_normalizes_like_writer_witness :
    (annotateFrame (fun _ => (3, 2)) id "Episode 7" (.fl demoQImg)).isU8 :=
  annotator_normalizes_like_writer.2 (fun _ => (3, 2)) id (fun _ hg => hg)
    "Episode 7" (.fl demoQImg)

/-! ## The assembler's NotFound behaviour -/

theorem gifProcessingOrder_eq_nil (listing : List String) :
    gifProcessingOrder listing = [] ↔ listing.filter isGifName = [] := by
  constructor
  · intro h
    have h2 := sortByKey_perm extract_episode_number (listing.filter isGifName)
    rw [show gifProcessingOrder listing =
      sortByKey extract_episode_number (listing.filter isGifName) from rfl] at h
    rw [h] at h2
    exact h2.symm.eq_nil
  · intro h
    show sortByKey extract_episode_number (listing.filter isGifName) = []
    rw [h]
    rfl

/-- C6: the assembler raises `FileNotFoundError` exactly when the folder
does not exist or its listing has no entry with a ".gif" suffix
(case-insensitively), and in exactly the remaining cases it writes the
single output file (never on the error paths: both raises precede the
write in the source). -/
theorem create_video_notfound_iff :
    ∀ (gif_folder output_file : String) (st : DirState),
      ((∃ msg, create_video_from_gifs gif_folder output_file st =
          .error (.fileNotFoundError msg)) ↔
        (st.dexists = false ∨ st.listing.filter isGifName = [])) ∧
      writesOf (create_video_from_gifs gif_folder output_file st) =
        (if st.dexists = true ∧ st.listing.filter isGifName ≠ [] then
          [output_file] else []) := by
  intro gf out st
  have hnil := gifProcessingOrder_eq_nil st.listing
  simp only [create_video_from_gifs]
  by_cases hd : st.dexists = false
  · rw [if_pos hd]
    simp [writesOf, hd]
  · rw [if_neg hd]
    rw [Bool.not_eq_false] at hd
    by_cases he : st.listing.filter isGifName = []
    · have hge : gifProcessingOrder st.listing = [] := hnil.mpr he
      rw [hge]
      simp [writesOf, he, hd]
    · have hne : gifProcessingOrder st.listing ≠ [] :=
        fun hh => he (hnil.mp hh)
      have hie : (gifProcessingOrder st.listing).isEmpty = false := by
        cases hgg : gifProcessingOrder st.listing with
        | nil => exact absurd hgg hne
        | cons a as => rfl
      rw [hie]
      simp [writesOf, he, hd]

/-- Witness for C6: on a missing folder the assembler raises
`FileNotFoundError`. -/
theorem create_video_notfound_iff_witness :
    ∃ msg, create_video_from_gifs "recordings" "training_summary.mp4"
        { dexists := false, listing := [] } =
      .error (.fileNotFoundError msg) :=
  (create_video_notfound_iff "recordings" "training_summary.mp4"
    { dexists := false, listing := [] }).1.mpr (Or.inl rfl)

/-! ## `save_gif` on the filesystem -/

theorem mkdir_tt_ok (fs : FS) (p : List String) :
    ∃ fs1, fs.mkdir p true true = .ok fs1 ∧
      (p ∈ fs.dirs → fs1 = fs) ∧
      (p ∉ fs.dirs → fs1.dirs = pathPrefixes p ++ fs.dirs) ∧
      fs1.files = fs.files := by
  unfold FS.mkdir
  by_cases hp : p ∈ fs.dirs
  · exact ⟨fs, by simp [hp], fun _ => rfl, fun h => absurd hp h, rfl⟩
  · exact ⟨{ fs with dirs := pathPrefixes p ++ fs.dirs }, by simp [hp],
      fun h => absurd h hp, fun _ => rfl, rfl⟩

theorem readFile_writeFile (fs : FS) (p : List String) (g : GifFile) :
    (fs.writeFile p g).readFile p = some g := by
  unfold FS.writeFile FS.readFile
  simp

theorem writeFile_dirs (fs : FS) (p : List String) (g : GifFile) :
    (fs.writeFile p g).dirs = fs.dirs := rfl

theorem self_mem_pathPrefixes (p : List String) (hp : p ≠ []) :
    p ∈ pathPrefixes p := by
  unfold pathPrefixes
  refine List.mem_map.mpr ⟨p.length - 1, List.mem_range.mpr ?_, ?_⟩
  · have := List.length_pos.mpr hp
    omega
  · have hl : p.length - 1 + 1 = p.length := by
      have := List.length_pos.mpr hp
      omega
    rw [hl, List.take_length]

/-- C9: for every filesystem state, frame list, episode name, folder and
fps, `save_gif` succeeds (in particular it never fails because the folder
pre-exists), creating the folder — and, when the folder was absent, every
missing parent — and (over)writes the encoded file at
`folder/episode_name.gif`, returning that path as a string. -/
theorem save_gif_creates_and_writes
    (fs : FS) (frames : List Frame) (name folder : String) (fps : Nat) :
    ∃ fs1 : FS,
      save_gif fs frames name folder fps =
        .ok (fs1, joinPath (parsePath folder ++ [name ++ ".gif"])) ∧
      (parsePath folder ≠ [] → parsePath folder ∈ fs1.dirs) ∧
      (parsePath folder ∉ fs.dirs →
        ∀ q ∈ pathPrefixes (parsePath folder), q ∈ fs1.dirs) ∧
      fs1.readFile (parsePath folder ++ [name ++ ".gif"]) =
        some { frames := frames.map normalizeFrame, fps := fps } := by
  obtain ⟨fsm, hok, hin, hnin, hfiles⟩ := mkdir_tt_ok fs (parsePath folder)
  refine ⟨fsm.writeFile (parsePath folder ++ [name ++ ".gif"])
    { frames := frames.map normalizeFrame, fps := fps }, ?_, ?_, ?_, ?_⟩
  · simp only [save_gif]
    rw [hok]
  · intro hne
    rw [writeFile_dirs]
    by_cases hp : parsePath folder ∈ fs.dirs
    · rw [hin hp]
      exact hp
    · rw [hnin hp]
      exact List.mem_append_left _ (self_mem_pathPrefixes _ hne)
  · intro hp q hq
    rw [writeFile_dirs, hnin hp]
    exact List.mem_append_left _ hq
  · exact readFile_writeFile _ _ _

/-- Witness for C9: saving into the absent nested folder "a/b" of the empty
filesystem creates both directories, writes the file and returns
"a/b/ep1.gif". -/
theorem save_gif_creates_and_writes_witness :
    ∃ fs1 : FS,
      save_gif demoFS [] "ep1" "a/b" 20 = .ok (fs1, "a/b/ep1.gif") ∧
      ["a"] ∈ fs1.dirs ∧ ["a", "b"] ∈ fs1.dirs ∧
      fs1.readFile ["a", "b", "ep1.gif"] = some { frames := [], fps := 20 } := by
  obtain ⟨fs1, hrun, hfolder, hparents, hread⟩ :=
    save_gif_creates_and_writes demoFS [] "ep1" "a/b" 20
  refine ⟨fs1, hrun, ?_, ?_, hread⟩
  · exact hparents (by decide) ["a"] (by decide)
  · exact hparents (by decide) ["a", "b"] (by decide)

end Recorder
